import Mathlib

/-!
Verification of the Sound-Threejs audio engine (src/index.js): playback
clock (Sound.play / Sound.pause / Sound.time), section scheduler
(Sound.onceAt and friends), onset detector (Kick), beat metronome (Beat),
and the per-frame driver (Sound.onUpdate).  JS numbers are embedded as
rationals; the JS values null and undefined, which can flow out of
Kick.maxAmplitude, are embedded explicitly because they compare
differently against numbers.  User callbacks are embedded by their
presence, and their invocations are reported as events.
-/

/-- A value that Kick.maxAmplitude can produce: a JS number, JS null
(returned for an out-of-range single frequency), or JS undefined
(an out-of-bounds array read). -/
inductive Amp
  | val : ℚ → Amp
  | null : Amp
  | undef : Amp
deriving DecidableEq, Repr

/-- JS comparison m >= c of an Amp against a number: null coerces to 0,
undefined compares as NaN so every comparison is false. -/
def Amp.ge (m : Amp) (c : ℚ) : Bool :=
  match m with
  | .val q => decide (c ≤ q)
  | .null => decide (c ≤ 0)
  | .undef => false

/-- Numeric value of an Amp as JS arithmetic treats it once stored in
currentThreshold: null behaves as 0 in every later comparison and
subtraction.  undef never reaches a store in Kick.calc because it fails
both comparisons. -/
def Amp.toQ : Amp → ℚ
  | .val q => q
  | .null => 0
  | .undef => 0

/-- The frequency field of a Kick: a single (possibly fractional) bin
index, or an inclusive [start, end] index range. -/
inductive FreqSel
  | single : ℚ → FreqSel
  | range : ℤ → ℤ → FreqSel
deriving DecidableEq, Repr

/-- JS array read fft[i]: the element when i is in bounds, undefined
otherwise. -/
def jsGet (fft : List ℚ) (i : ℤ) : Amp :=
  if h : 0 ≤ i ∧ i.toNat < fft.length then Amp.val (fft.get ⟨i.toNat, h.2⟩)
  else Amp.undef

/-- JS truncation ~~q: toward zero. -/
def jsTrunc (q : ℚ) : ℤ :=
  if 0 ≤ q then ⌊q⌋ else ⌈q⌉

/-- The loop of Kick.maxAmplitude over an index range,
for (i = a; i <= l; i++) if (fft[i] > max) max = fft[i]: an undefined
read never beats max.  The fuel argument counts the remaining
iterations. -/
def rangeMaxAux (fft : List ℚ) (i : ℤ) (fuel : ℕ) (acc : ℚ) : ℚ :=
  match fuel with
  | 0 => acc
  | Nat.succ n =>
    let acc' := match jsGet fft i with
      | Amp.val v => if acc < v then v else acc
      | _ => acc
    rangeMaxAux fft (i + 1) n acc'

/-- Kick.maxAmplitude: for a single frequency, fft[~~frequency] when
frequency < fft.length and null otherwise; for a range [a, b], the
maximum of fft[a..b] starting from 0. -/
def maxAmplitude (fft : List ℚ) : FreqSel → Amp
  | FreqSel.single f =>
      if f < (fft.length : ℚ) then jsGet fft (jsTrunc f) else Amp.null
  | FreqSel.range a b => Amp.val (rangeMaxAux fft a (b + 1 - a).toNat 0)

/-- State of a Kick detector.  hasOnKick / hasOffKick record whether the
corresponding callbacks were supplied. -/
structure Kick where
  frequency : FreqSel
  threshold : ℚ
  decay : ℚ
  hasOnKick : Bool
  hasOffKick : Bool
  isOn : Bool
  isKick : Bool
  currentThreshold : ℚ
deriving DecidableEq, Repr

/-- A callback invocation recorded during Kick.calc, with the magnitude
argument it was passed. -/
inductive KickEvent
  | onKick : Amp → KickEvent
  | offKick : Amp → KickEvent
deriving DecidableEq, Repr

/-- Kick.calc after the magnitude has been computed: the kick branch when
magnitude >= currentThreshold and magnitude >= threshold, the decay
branch otherwise. -/
def Kick.calcM (k : Kick) (m : Amp) : Kick × List KickEvent :=
  if m.ge k.currentThreshold && m.ge k.threshold then
    ({ k with currentThreshold := m.toQ, isKick := true },
     if k.hasOnKick then [KickEvent.onKick m] else [])
  else
    ({ k with currentThreshold := k.currentThreshold - k.decay, isKick := false },
     if k.hasOffKick then [KickEvent.offKick m] else [])

/-- Kick.calc: return unchanged when disabled, otherwise process the
magnitude read from the spectrum. -/
def Kick.calcFrame (k : Kick) (spectrum : List ℚ) : Kick × List KickEvent :=
  if !k.isOn then (k, [])
  else k.calcM (maxAmplitude spectrum k.frequency)

/-- Run a Kick over successive per-frame spectra, recording after each
frame the isKick flag and the currentThreshold. -/
def Kick.runTrace (k : Kick) : List (List ℚ) → List (Bool × ℚ)
  | [] => []
  | s :: rest =>
    let k' := (k.calcFrame s).1
    (k'.isKick, k'.currentThreshold) :: k'.runTrace rest

/-- The enabled Kick of the spec trace: threshold 230, decay 5, reading a
one-bin range so each frame's one-entry spectrum is its magnitude. -/
def kickC1 : Kick :=
  { frequency := FreqSel.range 0 0
    threshold := 230
    decay := 5
    hasOnKick := true
    hasOffKick := false
    isOn := true
    isKick := false
    currentThreshold := 230 }

/-- The configuration record accepted by Sound.createKick; a missing
field selects the constructor default.  Callbacks are embedded by
presence. -/
structure KickConfig where
  frequency : Option FreqSel
  threshold : Option ℚ
  decay : Option ℚ
  hasOnKick : Bool
  hasOffKick : Bool
deriving DecidableEq, Repr

/-- The Kick constructor: defaults frequency [0, 10], threshold 0.3,
decay 0.02; currentThreshold starts at threshold; isOn and isKick start
false. -/
def Kick.ofConfig (c : KickConfig) : Kick :=
  { frequency := c.frequency.getD (FreqSel.range 0 10)
    threshold := c.threshold.getD (3 / 10)
    decay := c.decay.getD (1 / 50)
    hasOnKick := c.hasOnKick
    hasOffKick := c.hasOffKick
    isOn := false
    isKick := false
    currentThreshold := c.threshold.getD (3 / 10) }

/-- Sound.createKick over the engine's kick list: constructs the Kick
from the configuration as given and appends it; there is no validation
and no error path. -/
def Sound.createKick (kicks : List Kick) (c : KickConfig) : List Kick × Kick :=
  (kicks ++ [Kick.ofConfig c], Kick.ofConfig c)

/-- State of a Beat metronome; currentTime is the accumulator the spec
calls nextFireTime. -/
structure Beat where
  factor : ℚ
  hasOnBeat : Bool
  isOn : Bool
  currentTime : ℚ
deriving DecidableEq, Repr

/-- The configuration record accepted by Sound.createBeat; factor
defaults to 1. -/
structure BeatConfig where
  factor : Option ℚ
  hasOnBeat : Bool
deriving DecidableEq, Repr

/-- The Beat constructor: factor defaults to 1, isOn starts false,
currentTime starts 0. -/
def Beat.ofConfig (c : BeatConfig) : Beat :=
  { factor := c.factor.getD 1
    hasOnBeat := c.hasOnBeat
    isOn := false
    currentTime := 0 }

/-- Sound.createBeat over the engine's beat list: constructs the Beat
from the configuration as given and appends it; there is no validation
and no error path. -/
def Sound.createBeat (beats : List Beat) (c : BeatConfig) : List Beat × Beat :=
  (beats ++ [Beat.ofConfig c], Beat.ofConfig c)

/-- Beat.calc: skip when time is 0; otherwise, when
time >= currentTime + beatDuration * factor, invoke onBeat (only when
enabled and present) and advance currentTime by exactly one interval.
The Bool result records whether onBeat was invoked. -/
def Beat.calc' (b : Beat) (time beatDuration : ℚ) : Beat × Bool :=
  if time = 0 then (b, false)
  else if b.currentTime + beatDuration * b.factor ≤ time then
    ({ b with currentTime := b.currentTime + beatDuration * b.factor },
     b.isOn && b.hasOnBeat)
  else (b, false)

/-- State of a section registered with Sound.onceAt: its trigger time and
the called flag the wrapper callback sets. -/
structure OnceSection where
  time : ℚ
  called : Bool
deriving DecidableEq, Repr

/-- The condition closure built by Sound.onceAt:
_this.time > time && !this.called. -/
def OnceSection.cond (s : OnceSection) (elapsed : ℚ) : Bool :=
  decide (s.time < elapsed) && !s.called

/-- One frame's evaluation of a onceAt section inside Sound.onUpdate: when
the condition holds the wrapped callback runs and sets called.  The Bool
result records whether the user callback was invoked. -/
def OnceSection.step (s : OnceSection) (elapsed : ℚ) : OnceSection × Bool :=
  if s.cond elapsed then ({ s with called := true }, true) else (s, false)

/-- Evaluate a onceAt section over a sequence of per-frame elapsed-time
samples, counting the callback invocations. -/
def OnceSection.runFrames (s : OnceSection) : List ℚ → ℕ
  | [] => 0
  | e :: rest =>
    (if (s.step e).2 then 1 else 0) + (s.step e).1.runFrames rest

/-- Playback-clock state of Sound: _startTime, _pauseTime, _isPlaying.
Both times are readings of ctx.currentTime, supplied explicitly as the
now argument of each operation. -/
structure SoundClock where
  startTime : ℚ
  pauseTime : ℚ
  isPlaying : Bool
deriving DecidableEq, Repr

/-- The state set up by the Sound constructor: _startTime = 0,
_pauseTime = 0, _isPlaying = false. -/
def SoundClock.init : SoundClock :=
  { startTime := 0, pauseTime := 0, isPlaying := false }

/-- Sound.play(offset): elapseTime = _pauseTime - _startTime + offset,
then _startTime = now - elapseTime and _isPlaying = true. -/
def SoundClock.play (s : SoundClock) (now offset : ℚ) : SoundClock :=
  { s with isPlaying := true
           startTime := now - (s.pauseTime - s.startTime + offset) }

/-- Sound.pause(): _pauseTime = now and _isPlaying = false. -/
def SoundClock.pause (s : SoundClock) (now : ℚ) : SoundClock :=
  { s with pauseTime := now, isPlaying := false }

/-- The Sound.time getter: now - _startTime while playing,
_pauseTime - _startTime while paused. -/
def SoundClock.time (s : SoundClock) (now : ℚ) : ℚ :=
  if s.isPlaying then now - s.startTime else s.pauseTime - s.startTime

/-- A section as seen by one pass of Sound.onUpdate: whether its
condition holds this frame, whether its callback throws when invoked, and
a label to report invocations. -/
structure SecSim where
  holds : Bool
  throws : Bool
  id : ℕ
deriving DecidableEq, Repr

/-- The section loop of Sound.onUpdate: invoke each callback whose
condition holds, in order.  There is no try/catch, so a throwing callback
aborts the loop; the result is the labels of the callbacks invoked and
whether an exception escaped. -/
def runSections : List SecSim → List ℕ × Bool
  | [] => ([], false)
  | s :: rest =>
    if s.holds then
      if s.throws then ([s.id], true)
      else ((s.id :: (runSections rest).1), (runSections rest).2)
    else runSections rest

/-- Outcome of one pass of Sound.onUpdate: whether the next frame was
requested, which section callbacks ran, and whether the kick and beat
phases ran. -/
structure FramePass where
  rearmed : Bool
  sectionCalls : List ℕ
  kicksProcessed : Bool
  beatsProcessed : Bool
deriving DecidableEq, Repr

/-- Control flow of Sound.onUpdate: requestAnimationFrame is called
first, then the section loop; the kick and beat phases run only when no
section callback threw, because an uncaught exception propagates out of
onUpdate. -/
def onUpdateModel (sections : List SecSim) : FramePass :=
  { rearmed := true
    sectionCalls := (runSections sections).1
    kicksProcessed := !(runSections sections).2
    beatsProcessed := !(runSections sections).2 }

/-- A fired onceAt section never fires again, whatever the samples. -/
theorem OnceSection.runFrames_called (t : ℚ) (es : List ℚ) :
    OnceSection.runFrames ⟨t, true⟩ es = 0 := by
  induction es with
  | nil => rfl
  | cons e rest ih =>
    simp [OnceSection.runFrames, OnceSection.step, OnceSection.cond, ih]

/-- C1: an enabled Kick processed on a frame with magnitude m is a kick
exactly when m >= currentThreshold and m >= threshold; on a kick,
currentThreshold is set to m (never lowered), onKick(m) is invoked if
present, and isKick is set; otherwise offKick(m) is invoked if present,
currentThreshold is decremented by decay with no floor clamp, and isKick
is cleared.  With threshold 230, decay 5 and magnitudes
[300, 300, 250, 200], the kick flags are [true, true, false, false] and
the currentThreshold trace is [300, 300, 295, 290]. -/
theorem kick_calc_spec :
    (∀ (k : Kick) (s : List ℚ), k.isOn = true →
      (((maxAmplitude s k.frequency).ge k.currentThreshold &&
          (maxAmplitude s k.frequency).ge k.threshold) = true →
        Kick.calcFrame k s =
          ({ k with currentThreshold := (maxAmplitude s k.frequency).toQ,
                    isKick := true },
           if k.hasOnKick then [KickEvent.onKick (maxAmplitude s k.frequency)]
           else []) ∧
        k.currentThreshold ≤ (maxAmplitude s k.frequency).toQ) ∧
      (((maxAmplitude s k.frequency).ge k.currentThreshold &&
          (maxAmplitude s k.frequency).ge k.threshold) = false →
        Kick.calcFrame k s =
          ({ k with currentThreshold := k.currentThreshold - k.decay,
                    isKick := false },
           if k.hasOffKick then [KickEvent.offKick (maxAmplitude s k.frequency)]
           else []))) ∧
    Kick.runTrace kickC1 [[300], [300], [250], [200]] =
      [(true, 300), (true, 300), (false, 295), (false, 290)] := by
  constructor
  · intro k s hOn
    constructor
    · intro hc
      refine ⟨?_, ?_⟩
      · simp [Kick.calcFrame, hOn, Kick.calcM, hc]
      · simp only [Bool.and_eq_true] at hc
        rcases hc with ⟨h1, -⟩
        cases e : maxAmplitude s k.frequency with
        | val q =>
          rw [e] at h1
          simp only [Amp.ge, decide_eq_true_eq] at h1
          simpa [Amp.toQ] using h1
        | null =>
          rw [e] at h1
          simp only [Amp.ge, decide_eq_true_eq] at h1
          simpa [Amp.toQ] using h1
        | undef =>
          rw [e] at h1
          simp [Amp.ge] at h1
    · intro hc
      simp [Kick.calcFrame, hOn, Kick.calcM, hc]
  · norm_num [Kick.runTrace, Kick.calcFrame, Kick.calcM, maxAmplitude,
      rangeMaxAux, jsGet, Amp.ge, Amp.toQ, kickC1]

/-- C1 witness: the first frame of the trace, through the kick branch. -/
theorem kick_calc_spec_witness :
    Kick.calcFrame kickC1 [300] =
      ({ kickC1 with currentThreshold := 300, isKick := true },
       [KickEvent.onKick (Amp.val 300)]) ∧
    kickC1.currentThreshold ≤ 300 := by
  have hm : maxAmplitude [300] kickC1.frequency = Amp.val 300 := by
    norm_num [maxAmplitude, rangeMaxAux, jsGet, kickC1]
  have h := (kick_calc_spec.1 kickC1 [300] rfl).1
    (by rw [hm]; norm_num [Amp.ge, kickC1])
  rcases h with ⟨h1, h2⟩
  constructor
  · rw [h1, hm]
    norm_num [Amp.toQ, kickC1]
  · rw [hm] at h2
    exact h2

/-- C2: Beat.calc skips entirely when playbackTime is 0; otherwise, when
playbackTime >= currentTime + beatDuration * factor it advances
currentTime by exactly one interval (no catch-up loop, however many
intervals have elapsed) and fires exactly when enabled with a callback
present; when playbackTime is below that bound nothing changes. -/
theorem beat_calc_spec (b : Beat) (t bd : ℚ) :
    (t = 0 → Beat.calc' b t bd = (b, false)) ∧
    (t ≠ 0 → b.currentTime + bd * b.factor ≤ t →
      Beat.calc' b t bd =
        ({ b with currentTime := b.currentTime + bd * b.factor },
         b.isOn && b.hasOnBeat)) ∧
    (t ≠ 0 → t < b.currentTime + bd * b.factor →
      Beat.calc' b t bd = (b, false)) := by
  refine ⟨?_, ?_, ?_⟩
  · intro ht
    simp [Beat.calc', ht]
  · intro ht hge
    simp [Beat.calc', ht, hge]
  · intro ht hlt
    simp [Beat.calc', ht, not_le.mpr hlt]

/-- C2 witness: seven intervals have elapsed, yet a single frame advances
currentTime by exactly one interval and fires once. -/
theorem beat_calc_spec_witness :
    Beat.calc' ⟨1, true, true, 0⟩ (7 / 2) (1 / 2) =
      (⟨1, true, true, 1 / 2⟩, true) := by
  have h := (beat_calc_spec ⟨1, true, true, 0⟩ (7 / 2) (1 / 2)).2.1
    (by norm_num) (by show (0 : ℚ) + 1 / 2 * 1 ≤ 7 / 2; norm_num)
  rw [h]
  norm_num

/-- C6: a disabled Beat past its fire bound still advances currentTime by
one interval but does not invoke onBeat, so re-enabling cannot replay
intervals that elapsed while disabled. -/
theorem beat_disabled_advances (b : Beat) (t bd : ℚ) (hoff : b.isOn = false)
    (ht : t ≠ 0) (hge : b.currentTime + bd * b.factor ≤ t) :
    Beat.calc' b t bd =
      ({ b with currentTime := b.currentTime + bd * b.factor }, false) := by
  simp [Beat.calc', ht, hge, hoff]

/-- C6 witness: a disabled Beat with a callback present advances without
firing. -/
theorem beat_disabled_advances_witness :
    Beat.calc' ⟨1, true, false, 0⟩ 5 (1 / 2) =
      (⟨1, true, false, 1 / 2⟩, false) := by
  have h := beat_disabled_advances ⟨1, true, false, 0⟩ 5 (1 / 2) rfl
    (by norm_num) (by show (0 : ℚ) + 1 / 2 * 1 ≤ 5; norm_num)
  rw [h]
  norm_num

/-- C3: a onceAt section starting unfired fires exactly once over any
sequence of elapsed-time samples that crosses its trigger time (and not
at all otherwise), and once the called flag is set its condition is false
on every later frame. -/
theorem onceAt_fires_exactly_once (t : ℚ) (es : List ℚ) :
    (OnceSection.runFrames ⟨t, false⟩ es =
      if es.any (fun e => decide (t < e)) then 1 else 0) ∧
    (∀ e : ℚ, OnceSection.cond ⟨t, true⟩ e = false) := by
  constructor
  · induction es with
    | nil => rfl
    | cons e rest ih =>
      by_cases hte : t < e
      · simp [OnceSection.runFrames, OnceSection.step, OnceSection.cond, hte,
          OnceSection.runFrames_called]
      · simp [OnceSection.runFrames, OnceSection.step, OnceSection.cond, hte, ih]
  · intro e
    simp [OnceSection.cond]

/-- C4: play(0) at wall time n0, two seconds of playback, pause, five
more wall-clock seconds with no effect while paused, then play(0): the
elapsed time right after the resume is exactly 2 seconds, not 7 and
not 0. -/
theorem clock_resume_preserves_elapsed (n0 : ℚ) :
    (SoundClock.play SoundClock.init n0 0).time (n0 + 2) = 2 ∧
    ((SoundClock.play SoundClock.init n0 0).pause (n0 + 2)).time (n0 + 5) = 2 ∧
    (((SoundClock.play SoundClock.init n0 0).pause (n0 + 2)).play (n0 + 7) 0).time
      (n0 + 7) = 2 := by
  refine ⟨?_, ?_, ?_⟩ <;>
    simp [SoundClock.play, SoundClock.pause, SoundClock.time, SoundClock.init]

/-- C5 counterexample: a clock playing since wall time 0 has elapsed 3 at
wall time 3, but play(1) issued at that moment yields elapsed 1, not the
claimed previous-elapsed-plus-offset 3 + 1 — play resumes from the
elapsed time of the last pause (here 0), not from the current elapsed
time. -/
theorem play_while_playing_counterexample :
    (SoundClock.play SoundClock.init 0 0).isPlaying = true ∧
    (SoundClock.play SoundClock.init 0 0).time 3 = 3 ∧
    ((SoundClock.play SoundClock.init 0 0).play 3 1).time 3 = 1 ∧
    (1 : ℚ) ≠ 3 + 1 := by
  norm_num [SoundClock.play, SoundClock.time, SoundClock.init]

/-- C5 amended: play(offset) at wall time now always restarts from the
elapsed time recorded at the last pause (pauseTime - startTime) plus
offset, whether or not the clock was playing; the current elapsed time of
a playing clock is not consulted. -/
theorem play_resumes_from_last_pause (s : SoundClock) (now offset : ℚ) :
    (s.play now offset).time now = (s.pauseTime - s.startTime) + offset ∧
    (s.play now offset).isPlaying = true := by
  constructor
  · simp [SoundClock.play, SoundClock.time]
  · rfl

/-- C7 counterexample: pause at wall time 2 freezes elapsed at 2, but a
second pause at wall time 7 re-captures the pause time and elapsed
becomes 7, not the value captured at the first pause. -/
theorem pause_twice_counterexample :
    ((SoundClock.play SoundClock.init 0 0).pause 2).time 2 = 2 ∧
    ((SoundClock.play SoundClock.init 0 0).pause 2).time 100 = 2 ∧
    (((SoundClock.play SoundClock.init 0 0).pause 2).pause 7).time 100 = 7 ∧
    (7 : ℚ) ≠ 2 := by
  norm_num [SoundClock.play, SoundClock.pause, SoundClock.time, SoundClock.init]

/-- C7 amended: pause never errors (it is total) and while paused the
elapsed time is constant — independent of the wall clock — at the value
captured by the most recent pause; but a second pause call re-captures
the current wall time, advancing the observable elapsed time by exactly
the wall-clock time passed between the two pause calls. -/
theorem pause_recaptures_elapsed (s : SoundClock) (n n2 now now2 : ℚ) :
    (s.pause n).time now = n - s.startTime ∧
    (s.pause n).time now = (s.pause n).time now2 ∧
    ((s.pause n).pause n2).time now = (s.pause n).time now + (n2 - n) := by
  refine ⟨?_, ?_, ?_⟩ <;>
    simp [SoundClock.pause, SoundClock.time]

/-- C8 counterexample: a frequency range with start 10 > end 3 and a
factor of -1 are both accepted at registration time — createKick and
createBeat construct and register the detector unchanged, with no
ConfigurationError and no clamping. -/
theorem create_no_validation_counterexample :
    (Sound.createKick [] ⟨some (FreqSel.range 10 3), some 230, some 5, true, false⟩).1 =
      [Kick.ofConfig ⟨some (FreqSel.range 10 3), some 230, some 5, true, false⟩] ∧
    (Kick.ofConfig ⟨some (FreqSel.range 10 3), some 230, some 5, true, false⟩).frequency =
      FreqSel.range 10 3 ∧
    (3 : ℤ) < 10 ∧
    (Sound.createBeat [] ⟨some (-1), true⟩).1 = [Beat.ofConfig ⟨some (-1), true⟩] ∧
    (Beat.ofConfig ⟨some (-1), true⟩).factor = -1 ∧
    (-1 : ℚ) ≤ 0 := by
  refine ⟨rfl, rfl, by norm_num, rfl, rfl, by norm_num⟩

/-- C8 amended: no numeric validation exists — createKick and createBeat
register the detector built from the configuration exactly as given, and
a frequency range with start > end merely makes maxAmplitude return 0
because its loop never runs. -/
theorem create_accepts_any_config :
    (∀ (kicks : List Kick) (c : KickConfig),
      Sound.createKick kicks c = (kicks ++ [Kick.ofConfig c], Kick.ofConfig c)) ∧
    (∀ (beats : List Beat) (c : BeatConfig),
      Sound.createBeat beats c = (beats ++ [Beat.ofConfig c], Beat.ofConfig c)) ∧
    (∀ (fft : List ℚ) (a b : ℤ), b < a →
      maxAmplitude fft (FreqSel.range a b) = Amp.val 0) := by
  refine ⟨fun _ _ => rfl, fun _ _ => rfl, fun fft a b hba => ?_⟩
  have h0 : (b + 1 - a).toNat = 0 := by omega
  simp only [maxAmplitude, h0]
  rfl

/-- C8 amended witness: the inverted range [10, 3] yields magnitude 0. -/
theorem create_accepts_any_config_witness :
    maxAmplitude [5, 6] (FreqSel.range 10 3) = Amp.val 0 :=
  create_accepts_any_config.2.2 [5, 6] 10 3 (by norm_num)

/-- C9 counterexample: two sections whose conditions both hold, the first
callback throwing — the second callback is not invoked and the kick and
beat phases are skipped, contradicting per-callback isolation; only the
next frame request (issued before the loop) survives. -/
theorem callback_isolation_counterexample :
    onUpdateModel [⟨true, true, 0⟩, ⟨true, false, 1⟩] =
      { rearmed := true, sectionCalls := [0], kicksProcessed := false,
        beatsProcessed := false } ∧
    1 ∉ (onUpdateModel [⟨true, true, 0⟩, ⟨true, false, 1⟩]).sectionCalls := by
  refine ⟨rfl, by simp [onUpdateModel, runSections]⟩

/-- C9 amended: Sound.onUpdate has no per-callback isolation and no error
observer — a throwing section callback aborts the rest of the pass
(later section callbacks, the kick phase and the beat phase all skipped)
and the exception propagates; the next frame is nevertheless scheduled
because requestAnimationFrame is invoked first in onUpdate. -/
theorem callback_no_isolation :
    (∀ sections : List SecSim, (onUpdateModel sections).rearmed = true) ∧
    (∀ (s : SecSim) (rest : List SecSim), s.holds = true → s.throws = true →
      onUpdateModel (s :: rest) =
        { rearmed := true, sectionCalls := [s.id], kicksProcessed := false,
          beatsProcessed := false }) := by
  refine ⟨fun _ => rfl, fun s rest hh ht => ?_⟩
  simp [onUpdateModel, runSections, hh, ht]

/-- C9 amended witness: a single throwing section aborts the pass while
the frame loop stays armed. -/
theorem callback_no_isolation_witness :
    onUpdateModel [⟨true, true, 7⟩] =
      { rearmed := true, sectionCalls := [7], kicksProcessed := false,
        beatsProcessed := false } :=
  callback_no_isolation.2 ⟨true, true, 7⟩ [] rfl rfl

/-- C10: for a Kick whose frequency is a single nonnegative number f,
maxAmplitude returns the snapshot value at the floored index when that
index is within the snapshot and null when it is not; a null magnitude
then drives the branch decision of Kick.calc exactly as the magnitude 0
would. -/
theorem kick_single_frequency (fft : List ℚ) (f : ℚ) (hf : 0 ≤ f) :
    (⌊f⌋.toNat < fft.length →
      maxAmplitude fft (FreqSel.single f) = Amp.val (fft.getD ⌊f⌋.toNat 0)) ∧
    (fft.length ≤ ⌊f⌋.toNat →
      maxAmplitude fft (FreqSel.single f) = Amp.null) ∧
    (∀ k : Kick, (k.calcM Amp.null).1 = (k.calcM (Amp.val 0)).1) ∧
    (∀ c : ℚ, Amp.ge Amp.null c = Amp.ge (Amp.val 0) c) := by
  have hfl0 : 0 ≤ ⌊f⌋ := Int.floor_nonneg.mpr hf
  have htr : jsTrunc f = ⌊f⌋ := if_pos hf
  refine ⟨?_, ?_, ?_, fun c => rfl⟩
  · intro h
    have hZ : ⌊f⌋ < (fft.length : ℤ) := by omega
    have hflt : f < (fft.length : ℚ) := by
      have := Int.floor_lt.mp hZ
      exact_mod_cast this
    have hget : fft.getD ⌊f⌋.toNat 0 = fft.get ⟨⌊f⌋.toNat, h⟩ :=
      List.getD_eq_get fft 0 h
    simp only [maxAmplitude, if_pos hflt, htr, jsGet, dif_pos (And.intro hfl0 h), hget]
  · intro hlen
    have hZ : (fft.length : ℤ) ≤ ⌊f⌋ := by omega
    have hge : (fft.length : ℚ) ≤ f := by
      have := Int.le_floor.mp hZ
      exact_mod_cast this
    simp only [maxAmplitude, if_neg (not_lt.mpr hge)]
  · intro k
    simp only [Kick.calcM, Amp.ge, Amp.toQ]
    cases hb : (decide (k.currentThreshold ≤ 0) && decide (k.threshold ≤ 0)) <;>
      simp [hb]

/-- C10 witness: in [5, 7, 9] the fractional index 3/2 floors to bin 1
and yields 7; index 2 in the one-entry snapshot [5] yields null. -/
theorem kick_single_frequency_witness :
    maxAmplitude [5, 7, 9] (FreqSel.single (3 / 2)) = Amp.val 7 ∧
    maxAmplitude [5] (FreqSel.single 2) = Amp.null := by
  have hfl : ⌊(3 / 2 : ℚ)⌋ = 1 := by norm_num
  have hfl2 : ⌊(2 : ℚ)⌋ = 2 := by norm_num
  constructor
  · have h := (kick_single_frequency [5, 7, 9] (3 / 2) (by norm_num)).1
    rw [hfl] at h
    have h1 := h (by norm_num)
    rw [h1]
    rfl
  · have h := (kick_single_frequency [5] 2 (by norm_num)).2.1
    rw [hfl2] at h
    exact h (by norm_num)
